import Mathlib

/-!
# Verification of the Lumie team-membership core

Shallow embedding of `lumie_backend/app/services/team_service.py` and
`lumie_backend/app/core/subscription_helpers.py`.  The MongoDB collections
become lists of records; `find_one` is `List.find?`, `count_documents` is
`List.countP`, `insert_one` appends, `update_one` rewrites the first match,
`delete_one` removes the first match and `delete_many` filters.  Every
operation takes the wall-clock instant (`datetime.utcnow()`) and any
freshly generated identifiers (`uuid4`, Mongo `_id`) as explicit arguments
and returns the final store next to an `Except` result, so that a write
performed before a raised `HTTPException` stays visible, exactly as in the
Python service (no rollback).
-/

namespace Lumie

/-- `SubscriptionTier` from `models/user.py`. -/
inductive SubscriptionTier where
  | free
  | monthly
  | annual
deriving DecidableEq

/-- `TeamRole` from `models/team.py` (string enum "admin" / "member"). -/
inductive TeamRole where
  | admin
  | member
deriving DecidableEq

/-- `MemberStatus` from `models/team.py` (string enum "pending" / "member"). -/
inductive MemberStatus where
  | pending
  | member
deriving DecidableEq

/-- The `.value` string of a tier, as passed to the limit-error payload. -/
def tierValue : SubscriptionTier → String
  | .free => "free"
  | .monthly => "monthly"
  | .annual => "annual"

/-- A document of the `users` collection (the fields the team service reads). -/
structure User where
  user_id : String
  email : String
  tier : SubscriptionTier
deriving DecidableEq

/-- A document of the `teams` collection. -/
structure Team where
  team_id : String
  name : String
  description : Option String
  created_by : String
  created_at : Nat
  updated_at : Nat
  is_deleted : Bool
  deleted_at : Option Nat
deriving DecidableEq

/-- A document of the `team_members` collection. -/
structure Membership where
  team_id : String
  user_id : String
  role : TeamRole
  status : MemberStatus
  invited_by : String
  invited_at : Nat
  joined_at : Option Nat
deriving DecidableEq

/-- A document of the `pending_invitations` collection; `inv_id` is the Mongo `_id`. -/
structure EmailInvitation where
  inv_id : Nat
  team_id : String
  email : String
  invited_by : String
  invited_at : Nat
  expires_at : Option Nat
deriving DecidableEq

/-- The store: the four collections the team service touches. -/
structure DB where
  users : List User
  teams : List Team
  team_members : List Membership
  pending_invitations : List EmailInvitation
deriving DecidableEq

/-- The `HTTPException`s raised by the service, one constructor per shape:
404, 403, 409, the structured 403 from `raise_subscription_limit_error`
(carrying tier, current count, limit and action), 400, and the unhandled
`AttributeError` a `None.get`/`None[...]` access would raise in Python. -/
inductive ApiError where
  | notFound (detail : String)
  | forbidden (detail : String)
  | conflict (detail : String)
  | capacityExceeded (user_tier : String) (current : Nat) (limit : Nat) (action : String)
  | badRequest (detail : String)
  | attributeError
deriving DecidableEq

/-- `TEAM_LIMIT_FREE` from `subscription_helpers.py`. -/
def TEAM_LIMIT_FREE : Nat := 1

/-- `TEAM_LIMIT_PRO` from `subscription_helpers.py`. -/
def TEAM_LIMIT_PRO : Nat := 100

/-- `get_team_limit` from `subscription_helpers.py`. -/
def get_team_limit (tier : SubscriptionTier) : Nat :=
  if tier = .free then TEAM_LIMIT_FREE else TEAM_LIMIT_PRO

/-- Timestamps are seconds; `timedelta(days=n)`. -/
def days (n : Nat) : Nat := n * 86400

/-- Python's `str.lower()` on the ASCII range (emails here are ASCII). -/
def lowerString (s : String) : String := ⟨s.data.map Char.toLower⟩

/-- `settings.SECRET_KEY` (an opaque signing key; its value is irrelevant). -/
def SECRET_KEY : String := "lumie-signing-key"

/-- The JWT claim set built by `generate_invitation_token`. -/
structure TokenPayload where
  team_id : String
  email : String
  type : String
  exp : Nat
  iat : Nat
deriving DecidableEq

/-- A signed token: the payload plus the key it was signed with.  Signature
verification is modelled as equality of the signing key with `SECRET_KEY`. -/
structure InvitationToken where
  payload : TokenPayload
  signing_key : String
deriving DecidableEq

/-- `TeamService.generate_invitation_token`. -/
def generate_invitation_token (now : Nat) (team_id : String) (email : String)
    (expires_in_days : Nat) : InvitationToken :=
  { payload := { team_id := team_id, email := email, type := "team_invitation",
                 exp := now + days expires_in_days, iat := now },
    signing_key := SECRET_KEY }

/-- `TeamService.decode_invitation_token`: `jwt.decode` verifies the signature
and the `exp` claim (valid while `now ≤ exp`), then the purpose tag is
checked; any failure collapses to `none`. -/
def decode_invitation_token (now : Nat) (t : InvitationToken) : Option TokenPayload :=
  if t.signing_key = SECRET_KEY ∧ now ≤ t.payload.exp then
    if t.payload.type = "team_invitation" then some t.payload else none
  else none

/-- Mongo `update_one`: rewrite the first element matching `q`. -/
def updateFirst (q : α → Bool) (f : α → α) : List α → List α
  | [] => []
  | x :: xs => if q x then f x :: xs else x :: updateFirst q f xs

/-- Mongo `delete_one`: drop the first element matching `q`. -/
def removeFirst (q : α → Bool) : List α → List α
  | [] => []
  | x :: xs => if q x then xs else x :: removeFirst q xs

/-- `TeamService.get_user_team_count`. -/
def get_user_team_count (db : DB) (user_id : String) : Nat :=
  db.team_members.countP (fun m => m.user_id == user_id && m.status == MemberStatus.member)

/-- `TeamCreate` from `models/team.py`. -/
structure TeamCreate where
  name : String
  description : Option String
deriving DecidableEq

/-- `TeamUpdate` from `models/team.py` (partial patch). -/
structure TeamUpdate where
  name : Option String
  description : Option String
deriving DecidableEq

/-- The fields of `TeamResponse` the claims are about. -/
structure TeamResponse where
  team_id : String
  name : String
  description : Option String
  role : TeamRole
  status : MemberStatus
  member_count : Nat
deriving DecidableEq

/-- `TeamService.create_team`: capacity check against the actor's tier, then
insertion of the `Team` document and the creator's admin membership.
`fresh_team_id` stands for `str(uuid.uuid4())`. -/
def create_team (db : DB) (user_id : String) (data : TeamCreate)
    (fresh_team_id : String) (now : Nat) : DB × Except ApiError TeamResponse :=
  match db.users.find? (fun u => u.user_id == user_id) with
  | none => (db, .error (.notFound "User not found"))
  | some user =>
    let current_count := get_user_team_count db user_id
    let limit := get_team_limit user.tier
    if limit ≤ current_count then
      (db, .error (.capacityExceeded (tierValue user.tier) current_count limit "create"))
    else
      let team : Team :=
        { team_id := fresh_team_id, name := data.name, description := data.description,
          created_by := user_id, created_at := now, updated_at := now,
          is_deleted := false, deleted_at := none }
      let member : Membership :=
        { team_id := fresh_team_id, user_id := user_id, role := .admin, status := .member,
          invited_by := user_id, invited_at := now, joined_at := some now }
      ({ db with teams := db.teams ++ [team], team_members := db.team_members ++ [member] },
       .ok { team_id := fresh_team_id, name := data.name, description := data.description,
             role := .admin, status := .member, member_count := 1 })

/-- `TeamService.get_team` (read only): membership check, then the team
looked up with `is_deleted: False`. -/
def get_team (db : DB) (team_id : String) (user_id : String) : Except ApiError TeamResponse :=
  match db.team_members.find? (fun m => m.team_id == team_id && m.user_id == user_id &&
      m.status == MemberStatus.member) with
  | none => .error (.forbidden "You are not a member of this team")
  | some membership =>
    match db.teams.find? (fun t => t.team_id == team_id && !t.is_deleted) with
    | none => .error (.notFound "Team not found")
    | some team =>
      .ok { team_id := team.team_id, name := team.name, description := team.description,
            role := membership.role, status := .member,
            member_count := db.team_members.countP
              (fun m => m.team_id == team_id && m.status == MemberStatus.member) }

/-- The `$set` document `update_team` builds: `updated_at` always, `name`
and `description` only when present in the patch. -/
def applyTeamUpdate (data : TeamUpdate) (now : Nat) (t : Team) : Team :=
  let t1 := { t with updated_at := now }
  let t2 := match data.name with
    | some n => { t1 with name := n }
    | none => t1
  match data.description with
  | some d => { t2 with description := d }
  | none => t2

/-- `TeamService.update_team`: admin check, unconditional `update_one` on the
`teams` collection (the filter is only `team_id`, `is_deleted` is not
re-checked), then `get_team` on the updated store. -/
def update_team (db : DB) (team_id : String) (user_id : String) (data : TeamUpdate)
    (now : Nat) : DB × Except ApiError TeamResponse :=
  match db.team_members.find? (fun m => m.team_id == team_id && m.user_id == user_id &&
      m.role == TeamRole.admin && m.status == MemberStatus.member) with
  | none => (db, .error (.forbidden "Only admins can update team info"))
  | some _ =>
    let db1 := { db with
      teams := updateFirst (fun t => t.team_id == team_id) (applyTeamUpdate data now) db.teams }
    (db1, get_team db1 team_id user_id)

/-- `TeamService.delete_team`: admin check, soft-delete of the team document
and `delete_many` of every membership row of the team. -/
def delete_team (db : DB) (team_id : String) (user_id : String) (now : Nat) :
    DB × Except ApiError Unit :=
  match db.team_members.find? (fun m => m.team_id == team_id && m.user_id == user_id &&
      m.role == TeamRole.admin && m.status == MemberStatus.member) with
  | none => (db, .error (.forbidden "Only admins can delete teams"))
  | some _ =>
    ({ db with
        teams := updateFirst (fun t => t.team_id == team_id)
          (fun t => { t with is_deleted := true, deleted_at := some now, updated_at := now })
          db.teams,
        team_members := db.team_members.filter (fun m => !(m.team_id == team_id)) },
     .ok ())

/-- The result dict of `invite_member` (the fields the claims are about). -/
structure InviteResult where
  team_id : String
  invited_email : String
  is_registered : Bool
deriving DecidableEq

/-- `TeamService.invite_member`: admin check, `is_deleted` re-check, then the
registered branch (exact, case-sensitive user lookup by `email`; PENDING
membership insert) or the unregistered branch (EmailInvitation keyed by the
lowercased email).  `fresh_inv_id` stands for the generated Mongo `_id`. -/
def invite_member (db : DB) (team_id : String) (inviter_user_id : String) (email : String)
    (now : Nat) (fresh_inv_id : Nat) : DB × Except ApiError InviteResult :=
  match db.team_members.find? (fun m => m.team_id == team_id && m.user_id == inviter_user_id &&
      m.role == TeamRole.admin && m.status == MemberStatus.member) with
  | none => (db, .error (.forbidden "Only admins can invite members"))
  | some _ =>
    match db.teams.find? (fun t => t.team_id == team_id && !t.is_deleted) with
    | none => (db, .error (.notFound "Team not found"))
    | some _ =>
      match db.users.find? (fun u => u.email == email) with
      | some invited_user =>
        match db.team_members.find? (fun m => m.team_id == team_id &&
            m.user_id == invited_user.user_id) with
        | some existing =>
          if existing.status = MemberStatus.member then
            (db, .error (.conflict "User is already a team member"))
          else
            (db, .error (.conflict "User already has a pending invitation"))
        | none =>
          ({ db with team_members := db.team_members ++
              [{ team_id := team_id, user_id := invited_user.user_id, role := .member,
                 status := .pending, invited_by := inviter_user_id, invited_at := now,
                 joined_at := none }] },
           .ok { team_id := team_id, invited_email := email, is_registered := true })
      | none =>
        match db.pending_invitations.find? (fun i => i.team_id == team_id &&
            i.email == lowerString email) with
        | some _ => (db, .error (.conflict "Invitation already sent to this email"))
        | none =>
          ({ db with pending_invitations := db.pending_invitations ++
              [{ inv_id := fresh_inv_id, team_id := team_id, email := lowerString email,
                 invited_by := inviter_user_id, invited_at := now,
                 expires_at := some (now + days 30) }] },
           .ok { team_id := team_id, invited_email := email, is_registered := false })

/-- The fields of `InvitationAcceptResponse` the claims are about. -/
structure InvitationAcceptResponse where
  team_id : String
  status : MemberStatus
  role : TeamRole
  joined_at : Nat
  team_name : String
  member_count : Nat
deriving DecidableEq

/-- `TeamService.accept_invitation`: PENDING-row check (its absence raises
403 "No pending invitation found"), capacity check, then `update_one` on the
first `(team_id, user_id)` row setting `status` and `joined_at`.  The final
team lookup has no `is_deleted` filter; a missing user or team document
would be a Python `AttributeError` (`None` access). -/
def accept_invitation (db : DB) (team_id : String) (user_id : String) (now : Nat) :
    DB × Except ApiError InvitationAcceptResponse :=
  match db.team_members.find? (fun m => m.team_id == team_id && m.user_id == user_id &&
      m.status == MemberStatus.pending) with
  | none => (db, .error (.forbidden "No pending invitation found"))
  | some membership =>
    match db.users.find? (fun u => u.user_id == user_id) with
    | none => (db, .error .attributeError)
    | some user =>
      let current_count := get_user_team_count db user_id
      let limit := get_team_limit user.tier
      if limit ≤ current_count then
        (db, .error (.capacityExceeded (tierValue user.tier) current_count limit "join"))
      else
        let new_members := updateFirst
          (fun m => m.team_id == team_id && m.user_id == user_id)
          (fun m => { m with status := .member, joined_at := some now }) db.team_members
        let db1 := { db with team_members := new_members }
        match db1.teams.find? (fun t => t.team_id == team_id) with
        | none => (db1, .error .attributeError)
        | some team =>
          (db1, .ok { team_id := team_id, status := .member, role := membership.role,
                      joined_at := now, team_name := team.name,
                      member_count := db1.team_members.countP
                        (fun m => m.team_id == team_id && m.status == MemberStatus.member) })

/-- `TeamService.leave_team`: active-membership check; an admin is blocked
with 409 whenever the team's count of admin members is at most one,
independently of the team size; otherwise `delete_one` on `(team_id,
user_id)`. -/
def leave_team (db : DB) (team_id : String) (user_id : String) (_now : Nat) :
    DB × Except ApiError String :=
  match db.team_members.find? (fun m => m.team_id == team_id && m.user_id == user_id &&
      m.status == MemberStatus.member) with
  | none => (db, .error (.forbidden "You are not a member of this team"))
  | some membership =>
    if membership.role = TeamRole.admin ∧
        db.team_members.countP (fun m => m.team_id == team_id &&
          m.role == TeamRole.admin && m.status == MemberStatus.member) ≤ 1 then
      (db, .error (.conflict
        "Cannot leave team as the only admin. Promote another member first or delete the team."))
    else
      let new_members :=
        removeFirst (fun m => m.team_id == team_id && m.user_id == user_id) db.team_members
      let db1 := { db with team_members := new_members }
      match db1.teams.find? (fun t => t.team_id == team_id) with
      | none => (db1, .error .attributeError)
      | some team => (db1, .ok team.name)

/-- `TeamService.remove_member`: admin check, self-removal rejected, target
row looked up by `(team_id, user_id)`; an admin target is rejected with 409;
otherwise `delete_one` on the same filter. -/
def remove_member (db : DB) (team_id : String) (admin_user_id : String)
    (target_user_id : String) (_now : Nat) : DB × Except ApiError String :=
  match db.team_members.find? (fun m => m.team_id == team_id && m.user_id == admin_user_id &&
      m.role == TeamRole.admin && m.status == MemberStatus.member) with
  | none => (db, .error (.forbidden "Only admins can remove members"))
  | some _ =>
    if admin_user_id = target_user_id then
      (db, .error (.forbidden "Cannot remove yourself. Use /leave endpoint instead."))
    else
      match db.team_members.find? (fun m => m.team_id == team_id &&
          m.user_id == target_user_id) with
      | none => (db, .error (.notFound "User is not a member of this team"))
      | some target =>
        if target.role = TeamRole.admin then
          (db, .error (.conflict "Cannot remove another admin"))
        else
          let new_members := removeFirst
            (fun m => m.team_id == team_id && m.user_id == target_user_id) db.team_members
          ({ db with team_members := new_members }, .ok target_user_id)

/-- The outcome classification of `get_invitation_from_token`. -/
inductive InvStatus where
  | already_member
  | pending
  | needs_signup
deriving DecidableEq

/-- The fields of the invitation-details dict the claims are about. -/
structure InvitationDetails where
  team_id : String
  team_name : String
  email : String
  status : InvStatus
deriving DecidableEq

/-- `TeamService.get_invitation_from_token` (read only, unauthenticated):
decode, team lookup with `is_deleted: False`, then classification.  The
registered branch keys on the account found by the lowercased claimed email;
the unregistered branch keys on a `pending_invitations` row, whose
`expires_at` is never consulted. -/
def get_invitation_from_token (db : DB) (token : InvitationToken) (now : Nat) :
    Except ApiError InvitationDetails :=
  match decode_invitation_token now token with
  | none => .error (.badRequest "Invalid or expired invitation link")
  | some payload =>
    match db.teams.find? (fun t => t.team_id == payload.team_id && !t.is_deleted) with
    | none => .error (.notFound "Team not found or has been deleted")
    | some team =>
      match db.users.find? (fun u => u.email == lowerString payload.email) with
      | some user =>
        match db.team_members.find? (fun m => m.team_id == payload.team_id &&
            m.user_id == user.user_id) with
        | some membership =>
          if membership.status = MemberStatus.member then
            .ok { team_id := payload.team_id, team_name := team.name,
                  email := payload.email, status := .already_member }
          else
            .ok { team_id := payload.team_id, team_name := team.name,
                  email := payload.email, status := .pending }
        | none => .error (.notFound "Invitation not found or has been cancelled")
      | none =>
        match db.pending_invitations.find? (fun i => i.team_id == payload.team_id &&
            i.email == lowerString payload.email) with
        | some _ =>
          .ok { team_id := payload.team_id, team_name := team.name,
                email := payload.email, status := .needs_signup }
        | none => .error (.notFound "Invitation not found or has been cancelled")

/-- `TeamService.accept_invitation_by_token`: decode, case-insensitive match
of the claimed email against the authenticated user's stored email (`not
user or user["email"].lower() != email.lower()` raises 403), then delegation
to `accept_invitation`. -/
def accept_invitation_by_token (db : DB) (token : InvitationToken) (user_id : String)
    (now : Nat) : DB × Except ApiError InvitationAcceptResponse :=
  match decode_invitation_token now token with
  | none => (db, .error (.badRequest "Invalid or expired invitation link"))
  | some payload =>
    match db.users.find? (fun u => u.user_id == user_id) with
    | none => (db, .error (.forbidden "This invitation was sent to a different email address"))
    | some user =>
      if lowerString user.email = lowerString payload.email then
        accept_invitation db payload.team_id user_id now
      else
        (db, .error (.forbidden "This invitation was sent to a different email address"))

/-- The Python truthiness-guarded expiry test of `process_pending_invitations`:
`invitation.get("expires_at") and datetime.utcnow() > invitation["expires_at"]`. -/
def invitationExpired (inv : EmailInvitation) (now : Nat) : Bool :=
  match inv.expires_at with
  | some e => decide (e < now)
  | none => false

/-- One iteration of the `process_pending_invitations` loop body on the
invitation `inv`: skip-and-delete when the team is gone or soft-deleted,
when the invitation is expired, or when a membership row for `(team_id,
user_id)` already exists; otherwise insert the PENDING membership carrying
the original inviter and `invited_at`, delete the invitation and count 1. -/
def process_one (user_id : String) (now : Nat) (db : DB) (inv : EmailInvitation) : DB × Nat :=
  let dropped := removeFirst (fun i => i.inv_id == inv.inv_id) db.pending_invitations
  match db.teams.find? (fun t => t.team_id == inv.team_id && !t.is_deleted) with
  | none => ({ db with pending_invitations := dropped }, 0)
  | some _ =>
    if invitationExpired inv now then
      ({ db with pending_invitations := dropped }, 0)
    else
      match db.team_members.find? (fun m => m.team_id == inv.team_id &&
          m.user_id == user_id) with
      | some _ => ({ db with pending_invitations := dropped }, 0)
      | none =>
        let new_members := db.team_members ++
          [{ team_id := inv.team_id, user_id := user_id, role := .member,
             status := .pending, invited_by := inv.invited_by,
             invited_at := inv.invited_at, joined_at := none }]
        ({ db with team_members := new_members, pending_invitations := dropped }, 1)

/-- The `for invitation in pending:` loop, threading the store and summing
the processed count. -/
def process_list (user_id : String) (now : Nat) : DB → List EmailInvitation → DB × Nat
  | db, [] => (db, 0)
  | db, inv :: rest =>
    let r := process_one user_id now db inv
    let r2 := process_list user_id now r.1 rest
    (r2.1, r.2 + r2.2)

/-- `TeamService.process_pending_invitations`: the snapshot of the rows whose
`email` equals the lowercased address, processed in order. -/
def process_pending_invitations (db : DB) (user_id : String) (email : String) (now : Nat) :
    DB × Nat :=
  process_list user_id now db
    (db.pending_invitations.filter (fun i => i.email == lowerString email))

/-! ## The admin invariant and list-level lemmas -/

/-- Number of rows with this `team_id`, role ADMIN and status MEMBER. -/
def adminCount (members : List Membership) (tid : String) : Nat :=
  members.countP (fun m => m.team_id == tid && m.role == TeamRole.admin &&
    m.status == MemberStatus.member)

/-- Every non-deleted team has at least one admin member row. -/
def adminInvariant (db : DB) : Prop :=
  ∀ t ∈ db.teams, t.is_deleted = false → 0 < adminCount db.team_members t.team_id

/-! ### Concrete states used by witnesses and counterexamples -/

deriving instance DecidableEq for Except

/-- The admin membership row of user `uA` on team `T1`. -/
def memA : Membership :=
  { team_id := "T1", user_id := "uA", role := .admin, status := .member,
    invited_by := "uA", invited_at := 0, joined_at := some 0 }

/-- Sole admin `uA` plus ordinary member `uB` (who accepted `uA`'s
invitation) on one active team. -/
def dbC2 : DB :=
  { users := [{ user_id := "uA", email := "a@x.com", tier := .free },
              { user_id := "uB", email := "b@x.com", tier := .free }],
    teams := [{ team_id := "T1", name := "Smiths", description := none, created_by := "uA",
                created_at := 0, updated_at := 0, is_deleted := false, deleted_at := none }],
    team_members := [memA,
                     { team_id := "T1", user_id := "uB", role := .member, status := .member,
                       invited_by := "uA", invited_at := 1, joined_at := some 2 }],
    pending_invitations := [] }

/-- A soft-deleted team that still carries a PENDING membership row for
`uB` (the state a delete racing an invite acceptance would leave). -/
def dbC4 : DB :=
  { users := [{ user_id := "uB", email := "b@x.com", tier := .free }],
    teams := [{ team_id := "T1", name := "Smiths", description := none, created_by := "uA",
                created_at := 0, updated_at := 10, is_deleted := true, deleted_at := some 10 }],
    team_members := [{ team_id := "T1", user_id := "uB", role := .member, status := .pending,
                       invited_by := "uA", invited_at := 3, joined_at := none }],
    pending_invitations := [] }

/-- The state `delete_team` leaves behind: a soft-deleted team document and
no membership rows. -/
def dbC4del : DB :=
  { users := [{ user_id := "uA", email := "a@x.com", tier := .free }],
    teams := [{ team_id := "T1", name := "Smiths", description := none, created_by := "uA",
                created_at := 0, updated_at := 10, is_deleted := true, deleted_at := some 10 }],
    team_members := [],
    pending_invitations := [] }

/-- A soft-deleted team on which an admin membership row survives. -/
def dbC4adm : DB :=
  { users := [{ user_id := "uA", email := "a@x.com", tier := .free }],
    teams := [{ team_id := "T1", name := "Smiths", description := none, created_by := "uA",
                created_at := 0, updated_at := 10, is_deleted := true, deleted_at := some 10 }],
    team_members := [memA],
    pending_invitations := [] }

/-- The active team document `T1`. -/
def teamT1 : Team :=
  { team_id := "T1", name := "Smiths", description := none, created_by := "uA",
    created_at := 0, updated_at := 0, is_deleted := false, deleted_at := none }

/-- A validly signed, unexpired invitation token for `(T1, b@x.com)`. -/
def tokC6 : InvitationToken :=
  { payload := { team_id := "T1", email := "b@x.com", type := "team_invitation",
                 exp := 2000, iat := 0 },
    signing_key := SECRET_KEY }

/-- No account for `b@x.com`; the EmailInvitation row for it is expired
(`expires_at = 10`). -/
def dbC6 : DB :=
  { users := [],
    teams := [teamT1],
    team_members := [],
    pending_invitations := [{ inv_id := 2, team_id := "T1", email := "b@x.com",
                              invited_by := "uA", invited_at := 3, expires_at := some 10 }] }

/-- `uB` already a MEMBER of `T1`. -/
def dbC6b : DB :=
  { users := [{ user_id := "uB", email := "b@x.com", tier := .free }],
    teams := [teamT1],
    team_members := [{ team_id := "T1", user_id := "uB", role := .member, status := .member,
                       invited_by := "uA", invited_at := 3, joined_at := some 5 }],
    pending_invitations := [] }

/-- Admin `uA` on active team `T1`; registered user `uB` stores the
lowercased email `b@x.com`. -/
def dbC10 : DB :=
  { users := [{ user_id := "uA", email := "a@x.com", tier := .free },
              { user_id := "uB", email := "b@x.com", tier := .free }],
    teams := [teamT1],
    team_members := [memA],
    pending_invitations := [] }

/-- One free-tier user who is sole admin member of one active team. -/
def dbW : DB :=
  { users := [{ user_id := "uA", email := "a@x.com", tier := .free }],
    teams := [{ team_id := "T1", name := "Smiths", description := none, created_by := "uA",
                created_at := 0, updated_at := 0, is_deleted := false, deleted_at := none }],
    team_members := [memA],
    pending_invitations := [] }

theorem removeFirst_of_find?_none {α : Type} (q : α → Bool) :
    ∀ l : List α, l.find? q = none → removeFirst q l = l
  | [], _ => rfl
  | x :: xs, h => by
    by_cases hq : q x
    · rw [List.find?_cons_of_pos _ hq] at h
      exact absurd h (by simp)
    · rw [List.find?_cons_of_neg _ hq] at h
      simp [removeFirst, hq, removeFirst_of_find?_none q xs h]

theorem countP_removeFirst_of_find?_some {α : Type} (q p : α → Bool) :
    ∀ (l : List α) (x : α), l.find? q = some x →
      l.countP p = (removeFirst q l).countP p + (if p x then 1 else 0)
  | [], x, h => by simp at h
  | y :: ys, x, h => by
    by_cases hq : q y
    · rw [List.find?_cons_of_pos _ hq] at h
      cases h
      simp [removeFirst, hq, List.countP_cons]
    · rw [List.find?_cons_of_neg _ hq] at h
      have ih := countP_removeFirst_of_find?_some q p ys x h
      simp [removeFirst, hq, List.countP_cons, ih]
      omega

theorem countP_removeFirst_pos {α : Type} (q p : α → Bool) (l : List α) (x : α)
    (hfx : l.find? q = some x) (hpx : p x = true) :
    l.countP p = (removeFirst q l).countP p + 1 := by
  have key := countP_removeFirst_of_find?_some q p l x hfx
  rw [if_pos hpx] at key
  exact key

theorem countP_removeFirst_neg {α : Type} (q p : α → Bool) (l : List α) (x : α)
    (hfx : l.find? q = some x) (hpx : p x = false) :
    l.countP p = (removeFirst q l).countP p := by
  have key := countP_removeFirst_of_find?_some q p l x hfx
  rw [if_neg (by simp [hpx])] at key
  simpa using key

theorem countP_le_updateFirst {α : Type} (q p : α → Bool) (f : α → α)
    (hf : ∀ x, p x = true → p (f x) = true) :
    ∀ l : List α, l.countP p ≤ (updateFirst q f l).countP p
  | [] => Nat.le_refl _
  | x :: xs => by
    by_cases hq : q x
    · simp only [updateFirst, if_pos hq, List.countP_cons]
      have hle : (if p x then 1 else 0) ≤ (if p (f x) then 1 else 0) := by
        by_cases hp : p x
        · simp [hp, hf x hp]
        · simp [hp]
      exact Nat.add_le_add (Nat.le_refl _) hle
    · simp only [updateFirst, if_neg hq, List.countP_cons]
      exact Nat.add_le_add (countP_le_updateFirst q p f hf xs) (Nat.le_refl _)

theorem countP_filter_eq_of_imp {α : Type} (p r : α → Bool)
    (h : ∀ x, p x = true → r x = true) :
    ∀ l : List α, (l.filter r).countP p = l.countP p
  | [] => rfl
  | x :: xs => by
    by_cases hr : r x
    · simp [List.filter_cons, hr, List.countP_cons, countP_filter_eq_of_imp p r h xs]
    · have hp : p x = false := by
        by_cases hpx : p x
        · exact absurd (h x hpx) (by simp [hr])
        · simpa using hpx
      simp [List.filter_cons, hr, List.countP_cons, hp, countP_filter_eq_of_imp p r h xs]

theorem countP_le_append {α : Type} (p : α → Bool) (l l2 : List α) :
    l.countP p ≤ (l ++ l2).countP p := by
  rw [List.countP_append]
  exact Nat.le_add_right _ _

/-- If a state agrees on `teams` and its admin counts have not decreased,
the invariant transfers. -/
theorem adminInvariant_mono (db db' : DB)
    (ht : db'.teams = db.teams)
    (hc : ∀ tid, adminCount db.team_members tid ≤ adminCount db'.team_members tid)
    (h : adminInvariant db) : adminInvariant db' := by
  intro t htm hdel
  exact Nat.lt_of_lt_of_le (h t (ht ▸ htm) hdel) (hc t.team_id)

theorem adminInvariant_create_team (db : DB) (h : adminInvariant db)
    (uid : String) (data : TeamCreate) (ftid : String) (now : Nat) :
    adminInvariant (create_team db uid data ftid now).1 := by
  unfold create_team
  split
  · exact h
  · dsimp only
    split
    · exact h
    · intro t htm hdel
      rcases List.mem_append.1 htm with h1 | h2
      · have hold := h t h1 hdel
        unfold adminCount at hold ⊢
        rw [List.countP_append]
        omega
      · obtain rfl := List.mem_singleton.1 h2
        unfold adminCount
        rw [List.countP_append]
        simp [List.countP_cons]

theorem adminInvariant_invite_member (db : DB) (h : adminInvariant db)
    (tid uid email : String) (now : Nat) (iid : Nat) :
    adminInvariant (invite_member db tid uid email now iid).1 := by
  unfold invite_member
  split
  · exact h
  · split
    · exact h
    · split
      · split
        · split
          · exact h
          · exact h
        · refine adminInvariant_mono db _ rfl (fun t => ?_) h
          exact countP_le_append _ _ _
      · split
        · exact h
        · refine adminInvariant_mono db _ rfl (fun t => ?_) h
          exact Nat.le_refl _

theorem adminInvariant_accept_invitation (db : DB) (h : adminInvariant db)
    (tid uid : String) (now : Nat) :
    adminInvariant (accept_invitation db tid uid now).1 := by
  unfold accept_invitation
  split
  · exact h
  · split
    · exact h
    · dsimp only
      split
      · exact h
      · split
        all_goals
          refine adminInvariant_mono db _ rfl (fun tid2 => ?_) h
          refine countP_le_updateFirst _ _ _ (fun x hx => ?_) _
          simp only [Bool.and_eq_true] at hx ⊢
          exact ⟨⟨hx.1.1, hx.1.2⟩, by decide⟩

theorem adminInvariant_process_one (db : DB) (h : adminInvariant db)
    (uid : String) (now : Nat) (inv : EmailInvitation) :
    adminInvariant (process_one uid now db inv).1 := by
  unfold process_one
  dsimp only
  split
  · exact adminInvariant_mono db _ rfl (fun t => Nat.le_refl _) h
  · split
    · exact adminInvariant_mono db _ rfl (fun t => Nat.le_refl _) h
    · split
      · exact adminInvariant_mono db _ rfl (fun t => Nat.le_refl _) h
      · exact adminInvariant_mono db _ rfl (fun t => countP_le_append _ _ _) h

theorem adminInvariant_process_list (uid : String) (now : Nat) :
    ∀ (invs : List EmailInvitation) (db : DB), adminInvariant db →
      adminInvariant (process_list uid now db invs).1
  | [], _, h => h
  | inv :: rest, db, h =>
    adminInvariant_process_list uid now rest _ (adminInvariant_process_one db h uid now inv)

theorem adminInvariant_process_pending (db : DB) (h : adminInvariant db)
    (uid email : String) (now : Nat) :
    adminInvariant (process_pending_invitations db uid email now).1 :=
  adminInvariant_process_list uid now _ db h

/-- Splitting a conjunctive `find?`: the first match of the weaker filter is
either the match of the conjunction or fails the second conjunct.  In
`leave_team` this relates the row `find_one` located and the row
`delete_one` removes. -/
theorem find?_and_split {α : Type} (w s : α → Bool) :
    ∀ (l : List α) (mem : α), l.find? (fun x => w x && s x) = some mem →
      ∃ x, l.find? w = some x ∧ (x = mem ∨ s x = false)
  | [], mem, h => by simp at h
  | y :: ys, mem, h => by
    by_cases hw : w y = true
    · by_cases hs : s y = true
      · simp only [List.find?_cons, hw, hs, Bool.true_and] at h
        cases h
        exact ⟨y, by simp only [List.find?_cons, hw], Or.inl rfl⟩
      · have hs' : s y = false := by simpa using hs
        exact ⟨y, by simp only [List.find?_cons, hw], Or.inr hs'⟩
    · have hw' : w y = false := by simpa using hw
      simp only [List.find?_cons, hw', Bool.false_and] at h
      obtain ⟨x, hfx, hxc⟩ := find?_and_split w s ys mem h
      refine ⟨x, ?_, hxc⟩
      simp only [List.find?_cons, hw']
      exact hfx

theorem adminInvariant_leave_team (db : DB) (h : adminInvariant db)
    (tid uid : String) (now : Nat) :
    adminInvariant (leave_team db tid uid now).1 := by
  unfold leave_team
  split
  · exact h
  · next mem heqs =>
    split
    · exact h
    · next hguard =>
      dsimp only
      split
      all_goals
        intro t htm hdel
        have hold := h t htm hdel
        obtain ⟨x, hfx, hxcase⟩ := find?_and_split
          (fun m => m.team_id == tid && m.user_id == uid)
          (fun m => m.status == MemberStatus.member) db.team_members mem heqs
        unfold adminCount at hold ⊢
        dsimp only at hold ⊢
        by_cases hpx : (x.team_id == t.team_id && x.role == TeamRole.admin &&
            x.status == MemberStatus.member) = true
        · have hxmem : x = mem := by
            rcases hxcase with h1 | h1
            · exact h1
            · exfalso
              simp only [Bool.and_eq_true] at hpx
              rw [h1] at hpx
              exact absurd hpx.2 (by decide)
          subst hxmem
          have hmem_pred := List.find?_some heqs
          simp only [Bool.and_eq_true, beq_iff_eq] at hmem_pred
          have hpx' := hpx
          simp only [Bool.and_eq_true, beq_iff_eq] at hpx'
          have hrole : x.role = TeamRole.admin := hpx'.1.2
          have hcnt : ¬ (db.team_members.countP (fun m => m.team_id == tid &&
              m.role == TeamRole.admin && m.status == MemberStatus.member) ≤ 1) :=
            fun hc => hguard ⟨hrole, hc⟩
          have htid : t.team_id = tid := by rw [← hpx'.1.1, hmem_pred.1.1]
          rw [htid]
          have key := countP_removeFirst_pos
            (fun m => m.team_id == tid && m.user_id == uid)
            (fun m => m.team_id == tid && m.role == TeamRole.admin &&
              m.status == MemberStatus.member) db.team_members x hfx
            (by simp only [Bool.and_eq_true, beq_iff_eq]
                exact ⟨⟨hmem_pred.1.1, hrole⟩, hmem_pred.2⟩)
          omega
        · rw [Bool.not_eq_true] at hpx
          have key := countP_removeFirst_neg
            (fun m => m.team_id == tid && m.user_id == uid)
            (fun m => m.team_id == t.team_id && m.role == TeamRole.admin &&
              m.status == MemberStatus.member) db.team_members x hfx hpx
          omega

theorem adminInvariant_remove_member (db : DB) (h : adminInvariant db)
    (tid auid tuid : String) (now : Nat) :
    adminInvariant (remove_member db tid auid tuid now).1 := by
  unfold remove_member
  split
  · exact h
  · split
    · exact h
    · split
      · exact h
      · next target heq =>
        split
        · exact h
        · next hrole =>
          dsimp only
          refine adminInvariant_mono db _ rfl (fun tid2 => ?_) h
          have hp : (target.team_id == tid2 && target.role == TeamRole.admin &&
              target.status == MemberStatus.member) = false := by
            cases hr : target.role with
            | admin => exact absurd hr hrole
            | member => simp [hr]
          have key := countP_removeFirst_neg
            (fun m => m.team_id == tid && m.user_id == tuid)
            (fun m => m.team_id == tid2 && m.role == TeamRole.admin &&
              m.status == MemberStatus.member) db.team_members target heq hp
          unfold adminCount
          dsimp only
          omega

/-- A surviving, still-active team after the soft-delete write of
`delete_team` must be an untouched team document with a different id. -/
theorem mem_updateFirst_delete {l : List Team} {tid : String} {now : Nat} {t : Team}
    (hnd : (l.map Team.team_id).Nodup)
    (hmem : t ∈ updateFirst (fun x => x.team_id == tid)
      (fun x => { x with is_deleted := true, deleted_at := some now, updated_at := now }) l)
    (hdel : t.is_deleted = false) :
    t ∈ l ∧ (t.team_id == tid) = false := by
  induction l with
  | nil => simp [updateFirst] at hmem
  | cons y ys ih =>
    rw [List.map_cons, List.nodup_cons] at hnd
    by_cases hq : (y.team_id == tid) = true
    · rw [updateFirst, if_pos hq] at hmem
      rcases List.mem_cons.1 hmem with h1 | h2
      · exfalso
        rw [h1] at hdel
        simp at hdel
      · refine ⟨List.mem_cons_of_mem _ h2, ?_⟩
        have hin : t.team_id ∈ ys.map Team.team_id := List.mem_map_of_mem _ h2
        by_contra hc
        rw [Bool.not_eq_false] at hc
        rw [beq_iff_eq] at hc hq
        rw [hc, ← hq] at hin
        exact hnd.1 hin
    · rw [updateFirst, if_neg hq] at hmem
      rcases List.mem_cons.1 hmem with h1 | h2
      · subst h1
        exact ⟨List.mem_cons_self _ _, by simpa using hq⟩
      · obtain ⟨ha, hb⟩ := ih hnd.2 h2
        exact ⟨List.mem_cons_of_mem _ ha, hb⟩

theorem adminInvariant_delete_team (db : DB) (h : adminInvariant db)
    (hnd : (db.teams.map Team.team_id).Nodup)
    (tid uid : String) (now : Nat) :
    adminInvariant (delete_team db tid uid now).1 := by
  unfold delete_team
  split
  · exact h
  · intro t htm hdel
    have hmem := mem_updateFirst_delete hnd htm hdel
    have hold := h t hmem.1 hdel
    unfold adminCount at hold ⊢
    rw [countP_filter_eq_of_imp]
    · exact hold
    · intro x hx
      simp only [Bool.and_eq_true, beq_iff_eq] at hx
      have hxt : x.team_id = t.team_id := hx.1.1
      simp [hxt, hmem.2]

/-- Claim C1: starting from any state in which team ids are unique (as in
every reachable state) and every non-deleted team has at least one
membership row with status MEMBER and role ADMIN, each of createTeam,
inviteMember, acceptInvitation, leaveTeam, removeMember, deleteTeam and
processPendingInvitationsOnSignup leaves a state in which every non-deleted
team still has at least one such row. -/
theorem C1_admin_invariant_preserved (db : DB)
    (hinv : adminInvariant db)
    (hnd : (db.teams.map Team.team_id).Nodup) :
    (∀ uid data ftid now, adminInvariant (create_team db uid data ftid now).1) ∧
    (∀ tid uid email now iid, adminInvariant (invite_member db tid uid email now iid).1) ∧
    (∀ tid uid now, adminInvariant (accept_invitation db tid uid now).1) ∧
    (∀ tid uid now, adminInvariant (leave_team db tid uid now).1) ∧
    (∀ tid auid tuid now, adminInvariant (remove_member db tid auid tuid now).1) ∧
    (∀ tid uid now, adminInvariant (delete_team db tid uid now).1) ∧
    (∀ uid email now, adminInvariant (process_pending_invitations db uid email now).1) :=
  ⟨fun uid data ftid now => adminInvariant_create_team db hinv uid data ftid now,
   fun tid uid email now iid => adminInvariant_invite_member db hinv tid uid email now iid,
   fun tid uid now => adminInvariant_accept_invitation db hinv tid uid now,
   fun tid uid now => adminInvariant_leave_team db hinv tid uid now,
   fun tid auid tuid now => adminInvariant_remove_member db hinv tid auid tuid now,
   fun tid uid now => adminInvariant_delete_team db hinv hnd tid uid now,
   fun uid email now => adminInvariant_process_pending db hinv uid email now⟩

/-- Witness for C1: the invariant holds of `dbW` and is preserved by a
concrete `create_team` call on it. -/
theorem C1_witness : adminInvariant (create_team dbW "uA" ⟨"N", none⟩ "T2" 7).1 :=
  (C1_admin_invariant_preserved dbW (by unfold adminInvariant; decide) (by decide)).1
    "uA" ⟨"N", none⟩ "T2" 7

/-- Counterexample to C2: in the claimed two-member configuration (sole
admin `uA`, ordinary member `uB` who accepted `uA`'s invitation),
`leave_team` does not succeed: it fails with 409 Conflict and leaves the
store unchanged, because the sole-admin guard compares the admin count, not
the team size. -/
theorem C2_counterexample :
    leave_team dbC2 "T1" "uA" 9 =
      (dbC2, Except.error (ApiError.conflict
        "Cannot leave team as the only admin. Promote another member first or delete the team.")) := by
  decide

/-- Claim C2 (amended): a sole admin's `leaveTeam` fails with 409 Conflict
whether the team has one member or two; the guard depends only on the count
of role ADMIN, status MEMBER rows, never on the team size, so the team is
never left adminless by `leaveTeam`. -/
theorem C2_leave_team_sole_admin_conflict (db : DB) (tid uid : String) (now : Nat)
    (mem : Membership)
    (hfind : db.team_members.find? (fun m => m.team_id == tid && m.user_id == uid &&
      m.status == MemberStatus.member) = some mem)
    (hrole : mem.role = TeamRole.admin)
    (hcount : db.team_members.countP (fun m => m.team_id == tid &&
      m.role == TeamRole.admin && m.status == MemberStatus.member) ≤ 1) :
    leave_team db tid uid now =
      (db, Except.error (ApiError.conflict
        "Cannot leave team as the only admin. Promote another member first or delete the team.")) := by
  unfold leave_team
  rw [hfind]
  dsimp only
  rw [if_pos ⟨hrole, hcount⟩]

/-- Witness for the amended C2, at both claimed team sizes: size two
(`dbC2`) and size one (`dbW`). -/
theorem C2_witness :
    leave_team dbC2 "T1" "uA" 9 =
      (dbC2, Except.error (ApiError.conflict
        "Cannot leave team as the only admin. Promote another member first or delete the team.")) ∧
    leave_team dbW "T1" "uA" 9 =
      (dbW, Except.error (ApiError.conflict
        "Cannot leave team as the only admin. Promote another member first or delete the team.")) :=
  ⟨C2_leave_team_sole_admin_conflict dbC2 "T1" "uA" 9 memA (by decide) (by decide) (by decide),
   C2_leave_team_sole_admin_conflict dbW "T1" "uA" 9 memA (by decide) (by decide) (by decide)⟩

/-- Claim C3: for every existing user, `createTeam` fails with
CapacityExceeded (carrying the current active-membership count and the tier
limit, 1 for FREE and 100 otherwise) exactly when the count has reached the
limit; below the limit it inserts the Team document and an ADMIN/MEMBER
membership row for the creator; in particular a limit-1 user already in one
team gets CapacityExceeded(current=1, limit=1). -/
theorem C3_create_team_capacity (db : DB) (uid : String) (data : TeamCreate)
    (ftid : String) (now : Nat) (u : User)
    (hu : db.users.find? (fun x => x.user_id == uid) = some u) :
    get_team_limit u.tier = (if u.tier = .free then 1 else 100) ∧
    ((create_team db uid data ftid now).2 = Except.error
        (ApiError.capacityExceeded (tierValue u.tier) (get_user_team_count db uid)
          (get_team_limit u.tier) "create") ↔
      get_team_limit u.tier ≤ get_user_team_count db uid) ∧
    (get_team_limit u.tier ≤ get_user_team_count db uid →
      (create_team db uid data ftid now).1 = db) ∧
    (get_user_team_count db uid < get_team_limit u.tier →
      (create_team db uid data ftid now).1 = { db with
        teams := db.teams ++
          [{ team_id := ftid, name := data.name, description := data.description,
             created_by := uid, created_at := now, updated_at := now,
             is_deleted := false, deleted_at := none }],
        team_members := db.team_members ++
          [{ team_id := ftid, user_id := uid, role := .admin, status := .member,
             invited_by := uid, invited_at := now, joined_at := some now }] }) ∧
    (u.tier = .free → get_user_team_count db uid = 1 →
      (create_team db uid data ftid now).2 = Except.error
        (ApiError.capacityExceeded "free" 1 1 "create")) := by
  have hbody : create_team db uid data ftid now =
      (if get_team_limit u.tier ≤ get_user_team_count db uid then
        (db, Except.error (ApiError.capacityExceeded (tierValue u.tier)
          (get_user_team_count db uid) (get_team_limit u.tier) "create"))
      else
        ({ db with
           teams := db.teams ++
             [{ team_id := ftid, name := data.name, description := data.description,
                created_by := uid, created_at := now, updated_at := now,
                is_deleted := false, deleted_at := none }],
           team_members := db.team_members ++
             [{ team_id := ftid, user_id := uid, role := .admin, status := .member,
                invited_by := uid, invited_at := now, joined_at := some now }] },
         Except.ok { team_id := ftid, name := data.name, description := data.description,
                     role := .admin, status := .member, member_count := 1 })) := by
    unfold create_team
    rw [hu]
  refine ⟨rfl, ?_, ?_, ?_, ?_⟩
  · by_cases hcap : get_team_limit u.tier ≤ get_user_team_count db uid
    · rw [hbody, if_pos hcap]
      simp [hcap]
    · rw [hbody, if_neg hcap]
      simp [hcap]
  · intro hcap
    rw [hbody, if_pos hcap]
  · intro hlt
    rw [hbody, if_neg (Nat.not_le.mpr hlt)]
  · intro hfree hcnt
    have hcap : get_team_limit u.tier ≤ get_user_team_count db uid := by
      rw [hfree, hcnt]; decide
    rw [hbody, if_pos hcap]
    rw [hfree, hcnt]
    rfl

/-- Witness for C3: the free-tier user of `dbW`, already active member of
one team, receives CapacityExceeded(current=1, limit=1) from `create_team`. -/
theorem C3_witness :
    (create_team dbW "uA" ⟨"Second", none⟩ "T9" 3).2 = Except.error
      (ApiError.capacityExceeded "free" 1 1 "create") :=
  (C3_create_team_capacity dbW "uA" ⟨"Second", none⟩ "T9" 3
    { user_id := "uA", email := "a@x.com", tier := .free } (by decide)).2.2.2.2
    rfl (by decide)

/-- Counterexample to C4: on a soft-deleted team whose PENDING membership
row survives, `accept_invitation` does not fail NotFound — it succeeds and
writes a MEMBER row onto the dead team, because it never re-checks
`is_deleted` (its final team lookup has no `is_deleted` filter). -/
theorem C4_counterexample :
    (accept_invitation dbC4 "T1" "uB" 50).2 = Except.ok
      { team_id := "T1", status := .member, role := .member, joined_at := 50,
        team_name := "Smiths", member_count := 1 } ∧
    (accept_invitation dbC4 "T1" "uB" 50).1.team_members =
      [{ team_id := "T1", user_id := "uB", role := .member, status := .member,
         invited_by := "uA", invited_at := 3, joined_at := some 50 }] := by
  decide

/-- Claim C4 (amended): only `invite_member` re-checks `is_deleted` at
mutation time.  In the states `delete_team` actually leaves — the team
soft-deleted and all its membership rows removed — `updateTeam`,
`inviteMember` and `acceptInvitation` all fail and leave the store
unchanged, but with 403 Forbidden (their membership guard fires first), not
NotFound; and when an admin membership row survives on a soft-deleted team,
`invite_member` alone fails NotFound with no write. -/
theorem C4_deleted_team_mutations (db : DB) (tid : String) :
    (∀ uid data now iid email,
      (∀ m ∈ db.team_members, ¬ (m.team_id = tid)) →
      update_team db tid uid data now =
        (db, Except.error (ApiError.forbidden "Only admins can update team info")) ∧
      invite_member db tid uid email now iid =
        (db, Except.error (ApiError.forbidden "Only admins can invite members")) ∧
      accept_invitation db tid uid now =
        (db, Except.error (ApiError.forbidden "No pending invitation found"))) ∧
    (∀ uid email now iid am,
      db.team_members.find? (fun m => m.team_id == tid && m.user_id == uid &&
        m.role == TeamRole.admin && m.status == MemberStatus.member) = some am →
      (∀ t ∈ db.teams, t.team_id = tid → t.is_deleted = true) →
      invite_member db tid uid email now iid =
        (db, Except.error (ApiError.notFound "Team not found"))) := by
  constructor
  · intro uid data now iid email hmem
    refine ⟨?_, ?_, ?_⟩
    · unfold update_team
      have hnone : db.team_members.find? (fun m => m.team_id == tid && m.user_id == uid &&
          m.role == TeamRole.admin && m.status == MemberStatus.member) = none := by
        rw [List.find?_eq_none]
        intro x hx hpx
        simp only [Bool.and_eq_true, beq_iff_eq] at hpx
        exact hmem x hx hpx.1.1.1
      rw [hnone]
    · unfold invite_member
      have hnone : db.team_members.find? (fun m => m.team_id == tid && m.user_id == uid &&
          m.role == TeamRole.admin && m.status == MemberStatus.member) = none := by
        rw [List.find?_eq_none]
        intro x hx hpx
        simp only [Bool.and_eq_true, beq_iff_eq] at hpx
        exact hmem x hx hpx.1.1.1
      rw [hnone]
    · unfold accept_invitation
      have hnone : db.team_members.find? (fun m => m.team_id == tid && m.user_id == uid &&
          m.status == MemberStatus.pending) = none := by
        rw [List.find?_eq_none]
        intro x hx hpx
        simp only [Bool.and_eq_true, beq_iff_eq] at hpx
        exact hmem x hx hpx.1.1
      rw [hnone]
  · intro uid email now iid am hadm hteams
    unfold invite_member
    rw [hadm]
    have hnone : db.teams.find? (fun t => t.team_id == tid && !t.is_deleted) = none := by
      rw [List.find?_eq_none]
      intro t ht hpt
      simp only [Bool.and_eq_true, beq_iff_eq, Bool.not_eq_true'] at hpt
      exact absurd (hteams t ht hpt.1) (by simp [hpt.2])
    rw [hnone]

/-- Witness for the amended C4: the three Forbidden outcomes on the
post-delete state `dbC4del`, and the NotFound outcome of `invite_member` on
`dbC4adm`, where an admin row survives the soft delete. -/
theorem C4_witness :
    (update_team dbC4del "T1" "uA" ⟨some "New", none⟩ 60 =
      (dbC4del, Except.error (ApiError.forbidden "Only admins can update team info")) ∧
     invite_member dbC4del "T1" "uA" "c@x.com" 60 7 =
      (dbC4del, Except.error (ApiError.forbidden "Only admins can invite members")) ∧
     accept_invitation dbC4del "T1" "uA" 60 =
      (dbC4del, Except.error (ApiError.forbidden "No pending invitation found"))) ∧
    invite_member dbC4adm "T1" "uA" "c@x.com" 60 7 =
      (dbC4adm, Except.error (ApiError.notFound "Team not found")) :=
  ⟨(C4_deleted_team_mutations dbC4del "T1").1 "uA" ⟨some "New", none⟩ 60 7 "c@x.com"
      (by decide),
   (C4_deleted_team_mutations dbC4adm "T1").2 "uA" "c@x.com" 60 7 memA
      (by decide) (by decide)⟩

/-- Claim C5: `processPendingInvitationsOnSignup` sweeps, in order, exactly
the EmailInvitation rows matching the lowercased email; each row is deleted
without creating a membership when its team is missing or soft-deleted,
when it is expired, or when a membership row for `(team, user)` already
exists; otherwise a PENDING/MEMBER-role membership carrying the original
inviter and `invited_at` is inserted, the row is deleted and the invitation
counts toward the returned total. -/
theorem C5_process_pending_characterization (db : DB) (uid email : String) (now : Nat)
    (inv : EmailInvitation) :
    (process_pending_invitations db uid email now =
      process_list uid now db
        (db.pending_invitations.filter (fun i => i.email == lowerString email))) ∧
    (∀ rest db0, process_list uid now db0 (inv :: rest) =
      ((process_list uid now (process_one uid now db0 inv).1 rest).1,
       (process_one uid now db0 inv).2 +
         (process_list uid now (process_one uid now db0 inv).1 rest).2)) ∧
    (db.teams.find? (fun t => t.team_id == inv.team_id && !t.is_deleted) = none →
      process_one uid now db inv =
        ({ db with pending_invitations :=
             removeFirst (fun i => i.inv_id == inv.inv_id) db.pending_invitations }, 0)) ∧
    (∀ t0, db.teams.find? (fun t => t.team_id == inv.team_id && !t.is_deleted) = some t0 →
      invitationExpired inv now = true →
      process_one uid now db inv =
        ({ db with pending_invitations :=
             removeFirst (fun i => i.inv_id == inv.inv_id) db.pending_invitations }, 0)) ∧
    (∀ t0 m0, db.teams.find? (fun t => t.team_id == inv.team_id && !t.is_deleted) = some t0 →
      invitationExpired inv now = false →
      db.team_members.find? (fun m => m.team_id == inv.team_id && m.user_id == uid) = some m0 →
      process_one uid now db inv =
        ({ db with pending_invitations :=
             removeFirst (fun i => i.inv_id == inv.inv_id) db.pending_invitations }, 0)) ∧
    (∀ t0, db.teams.find? (fun t => t.team_id == inv.team_id && !t.is_deleted) = some t0 →
      invitationExpired inv now = false →
      db.team_members.find? (fun m => m.team_id == inv.team_id && m.user_id == uid) = none →
      process_one uid now db inv =
        ({ db with
           team_members := db.team_members ++
             [{ team_id := inv.team_id, user_id := uid, role := .member,
                status := .pending, invited_by := inv.invited_by,
                invited_at := inv.invited_at, joined_at := none }],
           pending_invitations :=
             removeFirst (fun i => i.inv_id == inv.inv_id) db.pending_invitations }, 1)) := by
  refine ⟨rfl, fun rest db0 => rfl, ?_, ?_, ?_, ?_⟩
  · intro hteam
    unfold process_one
    rw [hteam]
  · intro t0 hteam hexp
    unfold process_one
    rw [hteam]
    dsimp only
    rw [if_pos hexp]
  · intro t0 m0 hteam hexp hm
    unfold process_one
    rw [hteam]
    dsimp only
    rw [if_neg (by simp [hexp]), hm]
  · intro t0 hteam hexp hm
    unfold process_one
    rw [hteam]
    dsimp only
    rw [if_neg (by simp [hexp]), hm]

/-- Witness for C5 (Scenario B shape): a live invitation for `b@x.com` on an
active team converts into a PENDING membership carrying the original
inviter and timestamp, the row is deleted, and it counts 1. -/
theorem C5_witness :
    process_one "uB" 50
      { users := [{ user_id := "uB", email := "b@x.com", tier := .free }],
        teams := [{ team_id := "T1", name := "Smiths", description := none,
                    created_by := "uA", created_at := 0, updated_at := 0,
                    is_deleted := false, deleted_at := none }],
        team_members := [],
        pending_invitations := [{ inv_id := 1, team_id := "T1", email := "b@x.com",
                                  invited_by := "uA", invited_at := 3,
                                  expires_at := some 100 }] }
      { inv_id := 1, team_id := "T1", email := "b@x.com", invited_by := "uA",
        invited_at := 3, expires_at := some 100 } =
    ({ users := [{ user_id := "uB", email := "b@x.com", tier := .free }],
       teams := [{ team_id := "T1", name := "Smiths", description := none,
                   created_by := "uA", created_at := 0, updated_at := 0,
                   is_deleted := false, deleted_at := none }],
       team_members := [{ team_id := "T1", user_id := "uB", role := .member,
                          status := .pending, invited_by := "uA", invited_at := 3,
                          joined_at := none }],
       pending_invitations := [] }, 1) := by
  have h := (C5_process_pending_characterization
    { users := [{ user_id := "uB", email := "b@x.com", tier := .free }],
      teams := [{ team_id := "T1", name := "Smiths", description := none,
                  created_by := "uA", created_at := 0, updated_at := 0,
                  is_deleted := false, deleted_at := none }],
      team_members := [],
      pending_invitations := [{ inv_id := 1, team_id := "T1", email := "b@x.com",
                                invited_by := "uA", invited_at := 3,
                                expires_at := some 100 }] }
    "uB" "b@x.com" 50
    { inv_id := 1, team_id := "T1", email := "b@x.com", invited_by := "uA",
      invited_at := 3, expires_at := some 100 }).2.2.2.2.2
    { team_id := "T1", name := "Smiths", description := none, created_by := "uA",
      created_at := 0, updated_at := 0, is_deleted := false, deleted_at := none }
    (by decide) (by decide) (by decide)
  rw [h]
  decide

/-- Counterexample to C6: at time 1000 every EmailInvitation row of `dbC6`
is past its `expires_at`, yet `get_invitation_from_token` still classifies
the token as `needs_signup` instead of NotFound — the row's expiry is never
consulted. -/
theorem C6_counterexample :
    dbC6.pending_invitations.all (fun i => invitationExpired i 1000) = true ∧
    get_invitation_from_token dbC6 tokC6 1000 = Except.ok
      { team_id := "T1", team_name := "Smiths", email := "b@x.com",
        status := .needs_signup } := by
  decide

/-- Claim C6 (amended): for a token decoding to valid claims for a
non-deleted team, the outcome is exactly one of: `already_member` when the
account found by the lowercased claimed email has a MEMBER row, `pending`
when it has a PENDING row, NotFound when the account exists with no row,
`needs_signup` when no account exists but an EmailInvitation row for
`(team, lowercased email)` exists — expired or not, its `expires_at` is
never consulted — and NotFound when no such row exists. -/
theorem C6_classification (db : DB) (tok : InvitationToken) (now : Nat)
    (p : TokenPayload) (team : Team)
    (hdec : decode_invitation_token now tok = some p)
    (hteam : db.teams.find? (fun t => t.team_id == p.team_id && !t.is_deleted) = some team) :
    (∀ u m, db.users.find? (fun x => x.email == lowerString p.email) = some u →
      db.team_members.find? (fun x => x.team_id == p.team_id && x.user_id == u.user_id) =
        some m →
      (m.status = MemberStatus.member →
        get_invitation_from_token db tok now = Except.ok
          { team_id := p.team_id, team_name := team.name, email := p.email,
            status := .already_member }) ∧
      (m.status = MemberStatus.pending →
        get_invitation_from_token db tok now = Except.ok
          { team_id := p.team_id, team_name := team.name, email := p.email,
            status := .pending })) ∧
    (∀ u, db.users.find? (fun x => x.email == lowerString p.email) = some u →
      db.team_members.find? (fun x => x.team_id == p.team_id && x.user_id == u.user_id) =
        none →
      get_invitation_from_token db tok now =
        Except.error (ApiError.notFound "Invitation not found or has been cancelled")) ∧
    (∀ i, db.users.find? (fun x => x.email == lowerString p.email) = none →
      db.pending_invitations.find? (fun x => x.team_id == p.team_id &&
        x.email == lowerString p.email) = some i →
      get_invitation_from_token db tok now = Except.ok
        { team_id := p.team_id, team_name := team.name, email := p.email,
          status := .needs_signup }) ∧
    (db.users.find? (fun x => x.email == lowerString p.email) = none →
      db.pending_invitations.find? (fun x => x.team_id == p.team_id &&
        x.email == lowerString p.email) = none →
      get_invitation_from_token db tok now =
        Except.error (ApiError.notFound "Invitation not found or has been cancelled")) := by
  refine ⟨?_, ?_, ?_, ?_⟩
  · intro u m hu hm
    constructor
    · intro hst
      unfold get_invitation_from_token
      rw [hdec]; dsimp only
      rw [hteam]; dsimp only
      rw [hu]; dsimp only
      rw [hm]; dsimp only
      rw [if_pos hst]
    · intro hst
      unfold get_invitation_from_token
      rw [hdec]; dsimp only
      rw [hteam]; dsimp only
      rw [hu]; dsimp only
      rw [hm]; dsimp only
      rw [if_neg (by simp [hst])]
  · intro u hu hm
    unfold get_invitation_from_token
    rw [hdec]; dsimp only
    rw [hteam]; dsimp only
    rw [hu]; dsimp only
    rw [hm]
  · intro i hu hi
    unfold get_invitation_from_token
    rw [hdec]; dsimp only
    rw [hteam]; dsimp only
    rw [hu]; dsimp only
    rw [hi]
  · intro hu hi
    unfold get_invitation_from_token
    rw [hdec]; dsimp only
    rw [hteam]; dsimp only
    rw [hu]; dsimp only
    rw [hi]

/-- Witness for the amended C6: on `dbC6b` the token resolves to
`already_member`, and on `dbC6` (expired row, no account) to
`needs_signup`. -/
theorem C6_witness :
    get_invitation_from_token dbC6b tokC6 1000 = Except.ok
      { team_id := "T1", team_name := "Smiths", email := "b@x.com",
        status := .already_member } ∧
    get_invitation_from_token dbC6 tokC6 1000 = Except.ok
      { team_id := "T1", team_name := "Smiths", email := "b@x.com",
        status := .needs_signup } :=
  ⟨((C6_classification dbC6b tokC6 1000 tokC6.payload teamT1 (by decide) (by decide)).1
      { user_id := "uB", email := "b@x.com", tier := .free }
      { team_id := "T1", user_id := "uB", role := .member, status := .member,
        invited_by := "uA", invited_at := 3, joined_at := some 5 }
      (by decide) (by decide)).1 rfl,
   (C6_classification dbC6 tokC6 1000 tokC6.payload teamT1 (by decide) (by decide)).2.2.1
      { inv_id := 2, team_id := "T1", email := "b@x.com", invited_by := "uA",
        invited_at := 3, expires_at := some 10 }
      (by decide) (by decide)⟩

/-- Claim C7: decoding the token minted by `encode(team, email, 30)` at any
unexpired instant returns the original team id, email and the required
purpose tag; a token whose embedded expiry lies in the past, or whose
purpose tag differs from "team_invitation", decodes to Invalid (`none`)
even under a valid signature. -/
theorem C7_token_roundtrip :
    (∀ (team_id email : String) (mint now2 : Nat), now2 ≤ mint + days 30 →
      decode_invitation_token now2 (generate_invitation_token mint team_id email 30) =
        some { team_id := team_id, email := email, type := "team_invitation",
               exp := mint + days 30, iat := mint }) ∧
    (∃ t : InvitationToken, t.signing_key = SECRET_KEY ∧ t.payload.exp < 1000 ∧
      decode_invitation_token 1000 t = none) ∧
    (∃ t : InvitationToken, t.signing_key = SECRET_KEY ∧ 1000 ≤ t.payload.exp ∧
      t.payload.type ≠ "team_invitation" ∧ decode_invitation_token 1000 t = none) := by
  refine ⟨?_,
    ⟨⟨⟨"T", "e", "team_invitation", 0, 0⟩, SECRET_KEY⟩, rfl, by decide, by decide⟩,
    ⟨⟨⟨"T", "e", "other", 2000, 0⟩, SECRET_KEY⟩, rfl, by decide, by decide, by decide⟩⟩
  intro team_id email mint now2 h
  unfold generate_invitation_token decode_invitation_token
  rw [if_pos ⟨rfl, h⟩, if_pos rfl]

/-- Witness for C7: a concrete mint at time 0 decoded at time 500. -/
theorem C7_witness :
    decode_invitation_token 500 (generate_invitation_token 0 "T1" "b@x.com" 30) =
      some { team_id := "T1", email := "b@x.com", type := "team_invitation",
             exp := days 30, iat := 0 } :=
  C7_token_roundtrip.1 "T1" "b@x.com" 0 500 (by decide)

/-- Counterexample to C8: on the pair `(T1, uB)` already in MEMBER state,
`accept_invitation` fails with 403 Forbidden ("No pending invitation
found"), not NotFound, leaving the store — and thus `joined_at` —
untouched. -/
theorem C8_counterexample :
    accept_invitation dbC2 "T1" "uB" 5 =
      (dbC2, Except.error (ApiError.forbidden "No pending invitation found")) := by
  decide

/-- Claim C8 (amended): when every membership row of the pair has status
MEMBER (so no PENDING row exists), `acceptInvitation` fails with 403
Forbidden ("No pending invitation found") — not NotFound — and performs no
write, so the stored `joined_at` is never re-stamped. -/
theorem C8_accept_already_member (db : DB) (tid uid : String) (now : Nat)
    (hmem : ∀ m ∈ db.team_members, m.team_id = tid → m.user_id = uid →
      m.status = MemberStatus.member) :
    accept_invitation db tid uid now =
      (db, Except.error (ApiError.forbidden "No pending invitation found")) := by
  unfold accept_invitation
  have hnone : db.team_members.find? (fun m => m.team_id == tid && m.user_id == uid &&
      m.status == MemberStatus.pending) = none := by
    rw [List.find?_eq_none]
    intro x hx hpx
    simp only [Bool.and_eq_true, beq_iff_eq] at hpx
    have hst := hmem x hx hpx.1.1 hpx.1.2
    rw [hst] at hpx
    exact absurd hpx.2 (by decide)
  rw [hnone]

/-- Witness for the amended C8: `uB`, a MEMBER of `T1` in `dbC6b`, receives
Forbidden and the store is unchanged. -/
theorem C8_witness :
    accept_invitation dbC6b "T1" "uB" 77 =
      (dbC6b, Except.error (ApiError.forbidden "No pending invitation found")) :=
  C8_accept_already_member dbC6b "T1" "uB" 77 (by decide)

/-- Claim C9: for a valid token and an existing authenticated user,
`acceptInvitationByToken` fails with 403 Forbidden and changes no state
whenever the token's email differs case-insensitively from the user's
stored email; when they match case-insensitively it is literally
`acceptInvitation(token.team_id, user)` — same result, same state. -/
theorem C9_accept_by_token (db : DB) (tok : InvitationToken) (uid : String) (now : Nat)
    (p : TokenPayload) (u : User)
    (hdec : decode_invitation_token now tok = some p)
    (hu : db.users.find? (fun x => x.user_id == uid) = some u) :
    (lowerString u.email ≠ lowerString p.email →
      accept_invitation_by_token db tok uid now =
        (db, Except.error (ApiError.forbidden
          "This invitation was sent to a different email address"))) ∧
    (lowerString u.email = lowerString p.email →
      accept_invitation_by_token db tok uid now =
        accept_invitation db p.team_id uid now) := by
  unfold accept_invitation_by_token
  rw [hdec]; dsimp only
  rw [hu]; dsimp only
  constructor
  · intro hne
    rw [if_neg hne]
  · intro heq
    rw [if_pos heq]

/-- Witness for C9: `uB`'s stored email matches the token's claimed email
case-insensitively, so the call coincides with plain `accept_invitation`. -/
theorem C9_witness :
    accept_invitation_by_token dbC6b tokC6 "uB" 1000 =
      accept_invitation dbC6b "T1" "uB" 1000 :=
  (C9_accept_by_token dbC6b tokC6 "uB" 1000 tokC6.payload
    { user_id := "uB", email := "b@x.com", tier := .free }
    (by decide) (by decide)).2 (by decide)

/-- Claim C10: when all stored emails are lowercased (as signup guarantees)
and the invited email differs from a registered user's stored email only in
letter case, the case-sensitive registered-user lookup misses, so
`invite_member` takes the unregistered branch: it inserts an EmailInvitation
row keyed by the lowercased email and no PENDING membership row. -/
theorem C10_invite_case_sensitive_lookup (db : DB) (tid inviter email : String)
    (now : Nat) (iid : Nat) (am : Membership) (stored : User) (t0 : Team)
    (hadm : db.team_members.find? (fun m => m.team_id == tid && m.user_id == inviter &&
      m.role == TeamRole.admin && m.status == MemberStatus.member) = some am)
    (hteam : db.teams.find? (fun t => t.team_id == tid && !t.is_deleted) = some t0)
    (hstored : stored ∈ db.users)
    (hcase : stored.email ≠ email)
    (hsame : lowerString stored.email = lowerString email)
    (hlow : ∀ u ∈ db.users, lowerString u.email = u.email)
    (hnoinv : db.pending_invitations.find? (fun i => i.team_id == tid &&
      i.email == lowerString email) = none) :
    db.users.find? (fun u => u.email == email) = none ∧
    invite_member db tid inviter email now iid =
      ({ db with
         pending_invitations := db.pending_invitations ++
           [{ inv_id := iid, team_id := tid, email := lowerString email,
              invited_by := inviter, invited_at := now,
              expires_at := some (now + days 30) }] },
       Except.ok { team_id := tid, invited_email := email, is_registered := false }) ∧
    (invite_member db tid inviter email now iid).1.team_members = db.team_members := by
  have husers : db.users.find? (fun u => u.email == email) = none := by
    rw [List.find?_eq_none]
    intro u hu hpe
    simp only [beq_iff_eq] at hpe
    have h1 : lowerString email = email := by rw [← hpe]; exact hlow u hu
    have h2 : stored.email = lowerString stored.email := (hlow stored hstored).symm
    rw [hsame, h1] at h2
    exact hcase h2
  have hbody : invite_member db tid inviter email now iid =
      ({ db with
         pending_invitations := db.pending_invitations ++
           [{ inv_id := iid, team_id := tid, email := lowerString email,
              invited_by := inviter, invited_at := now,
              expires_at := some (now + days 30) }] },
       Except.ok { team_id := tid, invited_email := email, is_registered := false }) := by
    unfold invite_member
    rw [hadm]; dsimp only
    rw [hteam]; dsimp only
    rw [husers]; dsimp only
    rw [hnoinv]
  exact ⟨husers, hbody, by rw [hbody]⟩

/-- Witness for C10: inviting `B@x.com` while `uB` stores `b@x.com` creates
the EmailInvitation keyed `b@x.com` and no membership row. -/
theorem C10_witness :
    invite_member dbC10 "T1" "uA" "B@x.com" 60 7 =
      ({ dbC10 with
         pending_invitations :=
           [{ inv_id := 7, team_id := "T1", email := lowerString "B@x.com",
              invited_by := "uA", invited_at := 60,
              expires_at := some (60 + days 30) }] },
       Except.ok { team_id := "T1", invited_email := "B@x.com", is_registered := false }) :=
  (C10_invite_case_sensitive_lookup dbC10 "T1" "uA" "B@x.com" 60 7 memA
    { user_id := "uB", email := "b@x.com", tier := .free } teamT1
    (by decide) (by decide) (by decide) (by decide) (by decide) (by decide) (by decide)).2.1

end Lumie

